import Mathlib

/-!
Shallow embedding of the data-processing pipeline of the GMF Investments
repository (scripts/data_processing.py) and verification of the frozen
claims about it.

Modelling conventions:
* A numeric cell of a pandas column is an Option over the rationals; a
  missing value (NaN) is none.  Float arithmetic is idealised as exact
  rational (and, where a square root occurs, real) arithmetic.
* A DataFrame is columnar: an index-label list plus one list per column,
  aligned by position.  Derived columns added later in the pipeline are
  optional fields (none when the column is absent).
* The ticker-to-frame dictionary is an association list that preserves
  insertion order, like a Python dict.
-/

namespace GMF

/-- A cell of a numeric pandas column: none models NaN. -/
abbrev Cell := Option ℚ

/-- Columnar model of a per-ticker pandas DataFrame.  The five raw OHLCV
columns are always present; derived columns (Daily Return, Rolling Mean,
Rolling Std, Z-Score) are present exactly when the corresponding field is
some.  idx models the pandas row-index labels. -/
structure DataFrame where
  idx : List ℕ
  Date : List ℤ
  Close : List Cell
  Open : List Cell
  High : List Cell
  Low : List Cell
  Volume : List Cell
  DailyReturn : Option (List Cell) := none
  RollingMean : Option (List (Option ℚ)) := none
  RollingStd : Option (List (Option ℝ)) := none
  ZScore : Option (List (Option ℝ)) := none

/-- Number of rows of a frame (length of its index). -/
def DataFrame.nrows (df : DataFrame) : ℕ := df.idx.length

/-- The pandas column list of a frame, in construction order. -/
def DataFrame.columns (df : DataFrame) : List String :=
  ["Date", "Close", "Open", "High", "Low", "Volume"]
    ++ (if df.DailyReturn.isSome then ["Daily Return"] else [])
    ++ (if df.RollingMean.isSome then ["Rolling Mean"] else [])
    ++ (if df.RollingStd.isSome then ["Rolling Std"] else [])
    ++ (if df.ZScore.isSome then ["Z-Score"] else [])

/-- The ticker-to-DataFrame dictionary threaded through the pipeline. -/
abbrev Frames := List (String × DataFrame)

/-! ## Missing-value handling (handle_missing_values) -/

/-- Forward fill of one column, carrying the last valid value. -/
def ffillAux {α : Type} : Option α → List (Option α) → List (Option α)
  | _, [] => []
  | last, c :: cs =>
    match c with
    | some v => some v :: ffillAux (some v) cs
    | none => last :: ffillAux last cs

/-- pandas fillna(method=pad) on one column. -/
def ffillCol {α : Type} (xs : List (Option α)) : List (Option α) :=
  ffillAux none xs

/-- pandas fillna(method=backfill) on one column. -/
def bfillCol {α : Type} (xs : List (Option α)) : List (Option α) :=
  (ffillCol xs.reverse).reverse

/-- True when row i of the frame has no missing value in any present
column (pandas dropna keeps exactly these rows). -/
def completeRow (df : DataFrame) (i : ℕ) : Bool :=
  (df.Close.getD i none).isSome && (df.Open.getD i none).isSome
    && (df.High.getD i none).isSome && (df.Low.getD i none).isSome
    && (df.Volume.getD i none).isSome
    && (match df.DailyReturn with
        | some c => (c.getD i none).isSome
        | none => true)
    && (match df.RollingMean with
        | some c => (c.getD i none).isSome
        | none => true)
    && (match df.RollingStd with
        | some c => (c.getD i none).isSome
        | none => true)
    && (match df.ZScore with
        | some c => (c.getD i none).isSome
        | none => true)

/-- pandas DataFrame.dropna: keep the complete rows, preserving the
original index labels (no re-indexing). -/
def dropna (df : DataFrame) : DataFrame :=
  let keep := (List.range df.nrows).filter (completeRow df)
  { idx := keep.map (fun i => df.idx.getD i 0)
    Date := keep.map (fun i => df.Date.getD i 0)
    Close := keep.map (fun i => df.Close.getD i none)
    Open := keep.map (fun i => df.Open.getD i none)
    High := keep.map (fun i => df.High.getD i none)
    Low := keep.map (fun i => df.Low.getD i none)
    Volume := keep.map (fun i => df.Volume.getD i none)
    DailyReturn := df.DailyReturn.map (fun c => keep.map (fun i => c.getD i none))
    RollingMean := df.RollingMean.map (fun c => keep.map (fun i => c.getD i none))
    RollingStd := df.RollingStd.map (fun c => keep.map (fun i => c.getD i none))
    ZScore := df.ZScore.map (fun c => keep.map (fun i => c.getD i none)) }

/-- Apply a per-column filler to every present column of a frame. -/
def mapCols (f : {α : Type} → List (Option α) → List (Option α))
    (df : DataFrame) : DataFrame :=
  { df with
    Close := f df.Close, Open := f df.Open, High := f df.High
    Low := f df.Low, Volume := f df.Volume
    DailyReturn := df.DailyReturn.map f
    RollingMean := df.RollingMean.map f
    RollingStd := df.RollingStd.map f
    ZScore := df.ZScore.map f }

/-- pandas DataFrame.fillna(method=m): only pad/ffill and backfill/bfill
are accepted; every other method string raises ValueError. -/
def fillna (df : DataFrame) (m : String) : Except String DataFrame :=
  if m = "ffill" ∨ m = "pad" then
    Except.ok (mapCols (fun {_} xs => ffillCol xs) df)
  else if m = "bfill" ∨ m = "backfill" then
    Except.ok (mapCols (fun {_} xs => bfillCol xs) df)
  else
    Except.error ("Invalid fill method. Expecting pad (ffill) or backfill (bfill). Got " ++ m)

/-- handle_missing_values: per ticker, dropna for method drop, otherwise
delegate the method string to fillna (which rejects anything but
ffill/pad/bfill/backfill, so the documented interpolate raises). -/
def handle_missing_values (frames : Frames) (method : String) :
    Except String Frames :=
  frames.mapM (fun p =>
    if method = "drop" then Except.ok (p.1, dropna p.2)
    else (fillna p.2 method).map (fun d => (p.1, d)))

/-! ## Normalization (normalize_data via sklearn MinMaxScaler) -/

/-- Maximum of a column's present values (none for an empty column). -/
def colMax : List ℚ → Option ℚ
  | [] => none
  | x :: l => some (l.foldl max x)

/-- Minimum of a column's present values (none for an empty column). -/
def colMin : List ℚ → Option ℚ
  | [] => none
  | x :: l => some (l.foldl min x)

/-- sklearn MinMaxScaler on one column: each present value x becomes
(x - min) * scale where scale is 1 / (max - min), or 1 when the observed
range is zero (the scaler's explicit zero-range handling); NaN cells are
ignored by the fit and preserved by the transform. -/
def minmaxCol (xs : List Cell) : List Cell :=
  match colMax xs.reduceOption, colMin xs.reduceOption with
  | some M, some m =>
    xs.map (Option.map (fun x => (x - m) * (if M = m then 1 else 1 / (M - m))))
  | _, _ => xs

/-- normalize_data: per ticker, min-max scale the five OHLCV columns in
place, each column fit on its own min and max. -/
def normalize_data (frames : Frames) : Frames :=
  frames.map (fun p =>
    (p.1, { p.2 with
      Close := minmaxCol p.2.Close, Open := minmaxCol p.2.Open
      High := minmaxCol p.2.High, Low := minmaxCol p.2.Low
      Volume := minmaxCol p.2.Volume }))

/-! ## Daily returns (pct_change) -/

/-- pandas Series.pct_change with its default pad pre-fill: NaN for the
first row, otherwise current over previous (pad-filled) minus one. -/
def pctChange (xs : List Cell) : List Cell :=
  let filled := ffillCol xs
  (List.range xs.length).map (fun i =>
    if i = 0 then none
    else
      match filled.getD i none, filled.getD (i - 1) none with
      | some a, some b => some (a / b - 1)
      | _, _ => none)

/-- The Daily Return column as calculate_daily_returns and
analyze_unusual_returns build it: pct_change times 100. -/
def dailyReturnPct (xs : List Cell) : List Cell :=
  (pctChange xs).map (Option.map (fun r => r * 100))

/-- calculate_daily_returns: per ticker, store pct_change times 100 in a
Daily Return column (the plotting is presentation-only). -/
def calculate_daily_returns (frames : Frames) : Frames :=
  frames.map (fun p =>
    (p.1, { p.2 with DailyReturn := some (dailyReturnPct p.2.Close) }))

/-! ## Rolling statistics (analyze_volatility) -/

/-- Mean of a list of rationals (sum over length). -/
def meanQ (xs : List ℚ) : ℚ := xs.sum / (xs.length : ℚ)

/-- Population variance (ddof 0), as scipy zscore uses. -/
def popVar (xs : List ℚ) : ℚ :=
  ((xs.map (fun x => (x - meanQ xs) ^ 2)).sum) / (xs.length : ℚ)

/-- Sample variance (ddof 1), as pandas rolling std uses. -/
def sampleVar (xs : List ℚ) : ℚ :=
  ((xs.map (fun x => (x - meanQ xs) ^ 2)).sum) / ((xs.length : ℚ) - 1)

/-- The trailing window of w cells ending at position i. -/
def windowSlice (xs : List Cell) (w i : ℕ) : List Cell :=
  (xs.drop (i + 1 - w)).take w

/-- All values of a column when none is missing, none otherwise (the
way an aggregation over a window or a whole series sees NaN). -/
def allSome {α : Type} : List (Option α) → Option (List α)
  | [] => some []
  | none :: _ => none
  | some a :: l => (allSome l).map (fun vs => a :: vs)

/-- pandas rolling(window=w).mean() on a column: defined at position i
exactly when the window is full (w cells ending at i, all non-NaN; the
default min_periods equals the window, and pandas rejects w = 0). -/
def rollingMeanCells (w : ℕ) (xs : List Cell) : List (Option ℚ) :=
  (List.range xs.length).map (fun i =>
    if w ≤ i + 1 ∧ 1 ≤ w then
      match allSome (windowSlice xs w i) with
      | some vs => some (meanQ vs)
      | none => none
    else none)

/-- pandas rolling(window=w).std() on a column: as the rolling mean, but
with sample standard deviation, which is additionally NaN when the
window holds a single observation (ddof 1). -/
noncomputable def rollingStdCells (w : ℕ) (xs : List Cell) :
    List (Option ℝ) :=
  (List.range xs.length).map (fun i =>
    if w ≤ i + 1 ∧ 2 ≤ w then
      match allSome (windowSlice xs w i) with
      | some vs => some (Real.sqrt ((sampleVar vs : ℚ) : ℝ))
      | none => none
    else none)

/-- analyze_volatility: per ticker, store the w-day rolling mean and
rolling std of Close (plots are presentation-only). -/
noncomputable def analyze_volatility (frames : Frames) (w : ℕ) : Frames :=
  frames.map (fun p =>
    (p.1, { p.2 with
      RollingMean := some (rollingMeanCells w p.2.Close)
      RollingStd := some (rollingStdCells w p.2.Close) }))

/-- visualize_All_in_one, data-model effects only: stores pct_change of
Close as Daily Return (without the times-100 of the other code paths)
and 20-day rolling mean and std. -/
noncomputable def visualize_All_in_one (frames : Frames) : Frames :=
  frames.map (fun p =>
    (p.1, { p.2 with
      DailyReturn := some (pctChange p.2.Close)
      RollingMean := some (rollingMeanCells 20 p.2.Close)
      RollingStd := some (rollingStdCells 20 p.2.Close) }))

/-! ## Z-score outlier detection (detect_outliers) -/

/-- scipy.stats.zscore on a column: every value minus the whole-series
mean, over the whole-series population standard deviation; a single NaN
poisons the mean and std, making every z-score NaN. -/
noncomputable def zscoresCells (xs : List Cell) : List (Option ℝ) :=
  match allSome xs with
  | some vs =>
    vs.map (fun x : ℚ =>
      some (((x : ℝ) - ((meanQ vs : ℚ) : ℝ)) / Real.sqrt ((popVar vs : ℚ) : ℝ)))
  | none => xs.map (fun _ => none)

/-- The outlier test of detect_outliers on one z-score cell: absolute
z-score strictly above the threshold; a NaN z-score never compares true. -/
def isOutlierZ (z : Option ℝ) (t : ℚ) : Prop :=
  match z with
  | some r => (t : ℝ) < |r|
  | none => False

open Classical in
/-- Row positions that detect_outliers reports for one column. -/
noncomputable def outlierPositions (xs : List Cell) (t : ℚ) : List ℕ :=
  (List.range xs.length).filter
    (fun i => decide (isOutlierZ ((zscoresCells xs).getD i none) t))

/-- detect_outliers: per ticker, store the Z-Score column and report the
Date and Close of every row whose absolute z-score exceeds the
threshold. -/
noncomputable def detect_outliers (frames : Frames) (t : ℚ) :
    Frames × List (String × List (ℤ × Cell)) :=
  (frames.map (fun p =>
      (p.1, { p.2 with ZScore := some (zscoresCells p.2.Close) })),
   frames.map (fun p =>
      (p.1, (outlierPositions p.2.Close t).map
        (fun i => (p.2.Date.getD i 0, p.2.Close.getD i none)))))

/-! ## Unusual returns (analyze_unusual_returns) -/

/-- The Daily Return column analyze_unusual_returns works with: the
pre-existing column when present, otherwise pct_change times 100. -/
def drOf (df : DataFrame) : List Cell :=
  match df.DailyReturn with
  | some v => v
  | none => dailyReturnPct df.Close

/-- The frame after analyze_unusual_returns: untouched when a Daily
Return column already exists, otherwise the computed one is stored. -/
def updateDR (df : DataFrame) : DataFrame :=
  match df.DailyReturn with
  | some _ => df
  | none => { df with DailyReturn := some (dailyReturnPct df.Close) }

/-- Row positions whose Daily Return cell is strictly above t or
strictly below -t (NaN cells never compare true). -/
def unusualPositions (dr : List Cell) (t : ℚ) : List ℕ :=
  (List.range dr.length).filter (fun i =>
    match dr.getD i none with
    | some v => decide (t < v) || decide (v < -t)
    | none => false)

/-- The rows analyze_unusual_returns prints for one ticker: Date, Close
and Daily Return of each unusual row. -/
def unusualReport (df : DataFrame) (t : ℚ) : List (ℤ × Cell × Cell) :=
  (unusualPositions (drOf df) t).map
    (fun i => (df.Date.getD i 0, df.Close.getD i none, (drOf df).getD i none))

/-- analyze_unusual_returns: per ticker, ensure a Daily Return column
(computing pct_change times 100 only when absent) and report the rows
whose Daily Return exceeds the threshold in absolute value. -/
def analyze_unusual_returns (frames : Frames) (t : ℚ) :
    Frames × List (String × List (ℤ × Cell × Cell)) :=
  (frames.map (fun p => (p.1, updateDR p.2)),
   frames.map (fun p => (p.1, unusualReport p.2 t)))

/-! ## Separation of the acquisition result (separate_data) -/

/-- The combined multi-ticker acquisition result: one shared date axis
and, for each field, a per-ticker column positionally aligned to it. -/
structure Historical where
  dates : List ℤ
  Close : String → List Cell
  Open : String → List Cell
  High : String → List Cell
  Low : String → List Cell
  Volume : String → List Cell

/-- The per-ticker frame separate_data builds: Close is taken with its
date axis and the index reset to a plain row index, then the other four
fields are attached positionally. -/
def mkTickerDF (hd : Historical) (t : String) : DataFrame :=
  { idx := List.range hd.dates.length
    Date := hd.dates
    Close := hd.Close t
    Open := hd.Open t
    High := hd.High t
    Low := hd.Low t
    Volume := hd.Volume t }

/-- separate_data: one independent frame per requested ticker, in the
ticker-list order. -/
def separate_data (hd : Historical) (tickers : List String) : Frames :=
  tickers.map (fun t => (t, mkTickerDF hd t))

/-! ## Read-only inspection (check_basic_statistics, ensure_data_types,
check_missing_values) -/

/-- The describe summary of one column: count of present values and
their mean (count, mean, min and max model the printed statistics). -/
def describeCol (xs : List Cell) : ℕ × ℚ × Option ℚ × Option ℚ :=
  let vs := xs.reduceOption
  (vs.length, meanQ vs, colMin vs, colMax vs)

/-- The describe report of a frame, one summary per numeric column. -/
def describeDF (df : DataFrame) : List (String × ℕ × ℚ × Option ℚ × Option ℚ) :=
  [("Close", describeCol df.Close), ("Open", describeCol df.Open),
   ("High", describeCol df.High), ("Low", describeCol df.Low),
   ("Volume", describeCol df.Volume)]

/-- The declared dtype of a column, as the dtypes printout shows it. -/
def dtypeOf (c : String) : String :=
  if c = "Date" then "datetime64[ns]" else "float64"

/-- The dtypes report of a frame. -/
def dtypesDF (df : DataFrame) : List (String × String) :=
  df.columns.map (fun c => (c, dtypeOf c))

/-- The isnull().sum() report of a frame: missing count per raw column. -/
def missingDF (df : DataFrame) : List (String × ℕ) :=
  [("Date", 0),
   ("Close", (df.Close.filter (fun c => c.isNone)).length),
   ("Open", (df.Open.filter (fun c => c.isNone)).length),
   ("High", (df.High.filter (fun c => c.isNone)).length),
   ("Low", (df.Low.filter (fun c => c.isNone)).length),
   ("Volume", (df.Volume.filter (fun c => c.isNone)).length)]

/-- check_basic_statistics: fold over the dictionary printing describe
per ticker; the dictionary itself is only read, never written. -/
def check_basic_statistics (frames : Frames) :
    Frames × List (String × List (String × ℕ × ℚ × Option ℚ × Option ℚ)) :=
  frames.foldl
    (fun acc p => (acc.1, acc.2 ++ [(p.1, describeDF p.2)])) (frames, [])

/-- ensure_data_types: fold over the dictionary printing dtypes per
ticker; read-only. -/
def ensure_data_types (frames : Frames) :
    Frames × List (String × List (String × String)) :=
  frames.foldl
    (fun acc p => (acc.1, acc.2 ++ [(p.1, dtypesDF p.2)])) (frames, [])

/-- check_missing_values: fold over the dictionary printing the missing
count per ticker; read-only. -/
def check_missing_values (frames : Frames) :
    Frames × List (String × List (String × ℕ)) :=
  frames.foldl
    (fun acc p => (acc.1, acc.2 ++ [(p.1, missingDF p.2)])) (frames, [])

/-! ## Seasonal decomposition driver (decompose_time_series_all_in_one) -/

/-- A date-indexed series, the shape set_index gives the Close series. -/
structure DateSeries where
  dates : List ℤ
  values : List Cell

/-- Insert a position into a position list sorted by date key. -/
def insertByKey (key : ℕ → ℤ) (i : ℕ) : List ℕ → List ℕ
  | [] => [i]
  | j :: js => if key i < key j then i :: j :: js else j :: insertByKey key i js

/-- The row positions of a frame sorted ascending by the Date column. -/
def sortPositions (df : DataFrame) : List ℕ :=
  (List.range df.nrows).foldl
    (fun acc i => insertByKey (fun j => df.Date.getD j 0) i acc) []

/-- pandas sort_values on Date: a NEW frame whose rows are reordered by
date; the input frame is not modified. -/
def sort_values_date (df : DataFrame) : DataFrame :=
  let perm := sortPositions df
  { idx := perm.map (fun i => df.idx.getD i 0)
    Date := perm.map (fun i => df.Date.getD i 0)
    Close := perm.map (fun i => df.Close.getD i none)
    Open := perm.map (fun i => df.Open.getD i none)
    High := perm.map (fun i => df.High.getD i none)
    Low := perm.map (fun i => df.Low.getD i none)
    Volume := perm.map (fun i => df.Volume.getD i none)
    DailyReturn := df.DailyReturn.map (fun c => perm.map (fun i => c.getD i none))
    RollingMean := df.RollingMean.map (fun c => perm.map (fun i => c.getD i none))
    RollingStd := df.RollingStd.map (fun c => perm.map (fun i => c.getD i none))
    ZScore := df.ZScore.map (fun c => perm.map (fun i => c.getD i none)) }

/-- set_index on Date followed by selecting Close: the date-indexed
Close series the decomposition routine receives. -/
def set_index_close (df : DataFrame) : DateSeries :=
  { dates := df.Date, values := df.Close }

/-- decompose_time_series_all_in_one: per ticker, sort a COPY of the
frame by Date (sort_values returns a new object, and the in-place
set_index then mutates only that copy), hand the date-indexed Close to
the external decomposition routine, and collect trend, seasonal and
residual; the input dictionary and its frames are never written. -/
def decompose_time_series_all_in_one
    (decomp : DateSeries → ℕ → DateSeries × DateSeries × DateSeries)
    (frames : Frames) (period : ℕ) :
    Frames × List (String × (DateSeries × DateSeries × DateSeries)) :=
  frames.foldl
    (fun acc p =>
      (acc.1,
       acc.2 ++ [(p.1, decomp (set_index_close (sort_values_date p.2)) period)]))
    (frames, [])

/-! ## Concrete frames used to instantiate the properties -/

/-- A minimal frame around a given Close column: plain row index, dates
0,1,2,..., and constant non-missing values in the other four columns. -/
def mkSimpleDF (closes : List Cell) : DataFrame :=
  { idx := List.range closes.length
    Date := (List.range closes.length).map (fun i => (i : ℤ))
    Close := closes
    Open := closes.map (fun _ => some 1)
    High := closes.map (fun _ => some 1)
    Low := closes.map (fun _ => some 1)
    Volume := closes.map (fun _ => some 1) }

/-- Three-row frame whose middle Close is missing. -/
def df3 : DataFrame := mkSimpleDF [some 1, none, some 3]

/-- Three-row frame with Close 100, 110, 99. -/
def dfRet : DataFrame := mkSimpleDF [some 100, some 110, some 99]

/-- Ten closes near 100 and one at 1000: the outlier example series. -/
def cs11 : List ℚ := List.replicate 10 100 ++ [1000]

/-- Frame around the outlier example series. -/
def df11 : DataFrame := mkSimpleDF (cs11.map some)

/-- A frame that already carries a Daily Return column (in an arbitrary
scale), to instantiate the analyze_unusual_returns properties. -/
def dfDR : DataFrame :=
  { mkSimpleDF [some 100, some 110, some 99] with
    DailyReturn := some [some 0, some 5, some (-3)] }

/-- A tiny two-date acquisition result for the separation properties. -/
def hdW : Historical :=
  { dates := [7, 8]
    Close := fun _ => [some 10, some 11]
    Open := fun _ => [some 1, some 2]
    High := fun _ => [some 12, some 13]
    Low := fun _ => [some 1, some 1]
    Volume := fun _ => [some 1000, some 1100] }

/-! ## Helper lemmas on lists and dictionaries -/

theorem lookup_map_val {α β : Type} (t : String) (l : List (String × α))
    (f : α → β) :
    List.lookup t (l.map (fun p => (p.1, f p.2)))
      = (List.lookup t l).map f := by
  induction l with
  | nil => rfl
  | cons p rest ih =>
    by_cases h : t = p.1
    · subst h; simp [List.lookup]
    · have hb : (t == p.1) = false := beq_eq_false_iff_ne.mpr h
      simp [List.lookup, hb, ih]

theorem mapM_loop_ok {ε α β : Type} (g : α → β) (l : List α) :
    ∀ acc : List β,
      List.mapM.loop (fun a => (Except.ok (g a) : Except ε β)) l acc
        = Except.ok (acc.reverse ++ l.map g) := by
  induction l with
  | nil => intro acc; simp [List.mapM.loop]; rfl
  | cons a rest ih =>
    intro acc
    simp only [List.mapM.loop]
    show List.mapM.loop (fun a => (Except.ok (g a) : Except ε β)) rest (g a :: acc)
      = Except.ok (acc.reverse ++ (a :: rest).map g)
    rw [ih (g a :: acc)]
    simp

theorem mapM_ok {ε α β : Type} (g : α → β) (l : List α) :
    (l.mapM (fun a => (Except.ok (g a) : Except ε β)))
      = Except.ok (l.map g) := by
  simpa using mapM_loop_ok g l []

theorem lookup_self_map {β : Type} (t : String) (l : List String)
    (g : String → β) (h : t ∈ l) :
    List.lookup t (l.map (fun s => (s, g s))) = some (g t) := by
  induction l with
  | nil => cases h
  | cons a rest ih =>
    by_cases ha : t = a
    · subst ha; simp [List.lookup]
    · rcases List.mem_cons.mp h with h1 | h2
      · exact absurd h1 ha
      · have hb : (t == a) = false := beq_eq_false_iff_ne.mpr ha
        simp [List.lookup, hb, ih h2]

theorem foldl_fst {α β γ : Type} (l : List α) (g : γ → α → γ) (s : β)
    (b : γ) :
    (l.foldl (fun acc p => (acc.1, g acc.2 p)) (s, b)).1 = s := by
  induction l generalizing b with
  | nil => rfl
  | cons a rest ih => exact ih (g b a)

theorem foldl_snd_map {α β γ : Type} (l : List α) (f : α → γ) (s : β)
    (b : List γ) :
    (l.foldl (fun acc p => (acc.1, acc.2 ++ [f p])) (s, b)).2
      = b ++ l.map f := by
  induction l generalizing b with
  | nil => simp
  | cons a rest ih => simp [ih (b ++ [f a])]

theorem reduceOption_map_some (cs : List ℚ) :
    (cs.map some).reduceOption = cs := by
  induction cs with
  | nil => rfl
  | cons a l ih => simp [List.reduceOption, ih]

theorem allSome_map_some {α : Type} (cs : List α) :
    allSome (cs.map some) = some cs := by
  induction cs with
  | nil => rfl
  | cons a l ih => simp [allSome, ih]

theorem getD_map_lt {α β : Type} (l : List α) (f : α → β) (p : ℕ)
    (d : β) (d0 : α) (h : p < l.length) :
    (l.map f).getD p d = f (l.getD p d0) := by
  induction l generalizing p with
  | nil => cases h
  | cons a rest ih =>
    cases p with
    | zero => rfl
    | succ q => exact ih q (Nat.lt_of_succ_lt_succ h)

theorem getD_map_option {α β : Type} (g : α → β) (l : List (Option α))
    (i : ℕ) :
    (l.map (Option.map g)).getD i none = Option.map g (l.getD i none) := by
  induction l generalizing i with
  | nil => cases i <;> rfl
  | cons a rest ih =>
    cases i with
    | zero => rfl
    | succ q => exact ih q

theorem getD_range_lt {n i : ℕ} (h : i < n) :
    (List.range n).getD i 0 = i := by
  induction n generalizing i with
  | zero => cases h
  | succ m ih =>
    rcases Nat.lt_succ_iff_lt_or_eq.mp h with h1 | h1
    · rw [List.range_succ, List.getD_append _ _ _ _ (by simpa using h1)]
      exact ih h1
    · subst h1
      rw [List.range_succ, List.getD_append_right _ _ _ _ (by simp),
        List.length_range]
      simp

theorem getD_outside {α : Type} (l : List α) (d : α) {i : ℕ}
    (h : l.length ≤ i) : l.getD i d = d := by
  induction l generalizing i with
  | nil => cases i <;> rfl
  | cons a rest ih =>
    cases i with
    | zero => cases h
    | succ q => exact ih (Nat.le_of_succ_le_succ h)

theorem map_range_getD {α : Type} (f : ℕ → Option α) (n i : ℕ) :
    ((List.range n).map f).getD i none = if i < n then f i else none := by
  by_cases h : i < n
  · rw [if_pos h, getD_map_lt _ _ _ _ 0 (by simpa using h), getD_range_lt h]
  · rw [if_neg h, getD_outside]
    simpa using Nat.le_of_not_lt h

theorem range_filter_bne_length {n k : ℕ} (h : k < n) :
    ((List.range n).filter (fun i => i != k)).length = n - 1 := by
  induction n with
  | zero => cases h
  | succ m ih =>
    rw [List.range_succ, List.filter_append, List.length_append]
    by_cases h1 : k < m
    · have hne : (m != k) = true := by
        rw [bne_iff_ne]
        omega
      have hm : (List.filter (fun i => i != k) [m]).length = 1 := by
        simp [List.filter, hne]
      rw [ih h1, hm]
      omega
    · have hk : k = m := by omega
      have hall : List.filter (fun i => i != k) (List.range m)
          = List.range m := by
        apply List.filter_eq_self.mpr
        intro a ha
        have ham : a < m := List.mem_range.mp ha
        rw [bne_iff_ne]
        omega
      have heq : (m != k) = false := by
        rw [bne_eq_false_iff_eq]
        omega
      have hm : (List.filter (fun i => i != k) [m]).length = 0 := by
        simp [List.filter, heq]
      rw [hall, hm]
      simp

theorem foldl_max_init_le (a : ℚ) (l : List ℚ) : a ≤ l.foldl max a := by
  induction l generalizing a with
  | nil => exact le_refl a
  | cons b rest ih => exact le_trans (le_max_left a b) (ih (max a b))

theorem le_foldl_max_of_mem {x : ℚ} {l : List ℚ} (a : ℚ) (hx : x ∈ l) :
    x ≤ l.foldl max a := by
  induction l generalizing a with
  | nil => cases hx
  | cons b rest ih =>
    rcases List.mem_cons.mp hx with h1 | h1
    · subst h1
      exact le_trans (le_max_right a x) (foldl_max_init_le (max a x) rest)
    · exact ih (max a b) h1

theorem foldl_min_init_ge (a : ℚ) (l : List ℚ) : l.foldl min a ≤ a := by
  induction l generalizing a with
  | nil => exact le_refl a
  | cons b rest ih => exact le_trans (ih (min a b)) (min_le_left a b)

theorem foldl_min_le_of_mem {x : ℚ} {l : List ℚ} (a : ℚ) (hx : x ∈ l) :
    l.foldl min a ≤ x := by
  induction l generalizing a with
  | nil => cases hx
  | cons b rest ih =>
    rcases List.mem_cons.mp hx with h1 | h1
    · subst h1
      exact le_trans (foldl_min_init_ge (min a x) rest) (min_le_right a x)
    · exact ih (min a b) h1

theorem colMax_is_ub {cs : List ℚ} {M : ℚ} (h : colMax cs = some M) :
    ∀ x ∈ cs, x ≤ M := by
  cases cs with
  | nil => cases h
  | cons a l =>
    intro x hx
    have hM : M = l.foldl max a := by
      simpa [colMax] using h.symm
    subst hM
    rcases List.mem_cons.mp hx with h1 | h1
    · subst h1; exact foldl_max_init_le x l
    · exact le_foldl_max_of_mem a h1

theorem colMin_is_lb {cs : List ℚ} {m : ℚ} (h : colMin cs = some m) :
    ∀ x ∈ cs, m ≤ x := by
  cases cs with
  | nil => cases h
  | cons a l =>
    intro x hx
    have hm : m = l.foldl min a := by
      simpa [colMin] using h.symm
    subst hm
    rcases List.mem_cons.mp hx with h1 | h1
    · subst h1; exact foldl_min_init_ge x l
    · exact foldl_min_le_of_mem a h1

theorem minmaxCol_map_some (cs : List ℚ) (M m : ℚ)
    (hM : colMax cs = some M) (hm : colMin cs = some m) :
    minmaxCol (cs.map some)
      = cs.map (fun x =>
          some ((x - m) * (if M = m then 1 else 1 / (M - m)))) := by
  have h1 : minmaxCol (cs.map some)
      = match colMax cs, colMin cs with
        | some M', some m' =>
          (cs.map some).map
            (Option.map (fun x => (x - m') * (if M' = m' then 1 else 1 / (M' - m'))))
        | _, _ => cs.map some := by
    unfold minmaxCol
    rw [reduceOption_map_some]
  rw [h1, hM, hm]
  show (cs.map some).map
      (Option.map (fun x => (x - m) * (if M = m then 1 else 1 / (M - m)))) = _
  rw [List.map_map]
  rfl

theorem foldl_max_replicate (k : ℕ) (x : ℚ) :
    (List.replicate k x).foldl max x = x := by
  induction k with
  | zero => rfl
  | succ m ih => simpa [List.replicate_succ] using ih

theorem foldl_min_replicate (k : ℕ) (x : ℚ) :
    (List.replicate k x).foldl min x = x := by
  induction k with
  | zero => rfl
  | succ m ih => simpa [List.replicate_succ] using ih

theorem windowSlice_map_some (cs : List ℚ) (w i : ℕ) :
    windowSlice (cs.map some) w i = ((cs.drop (i + 1 - w)).take w).map some := by
  simp [windowSlice]

theorem abs_div_sqrt_gt_iff (q v t : ℚ) (ht : 0 ≤ t) :
    ((t : ℝ) < |(q : ℝ) / Real.sqrt (v : ℝ)|)
      ↔ (0 < v ∧ t ^ 2 * v < q ^ 2) := by
  by_cases hv : 0 < v
  · have hv2 : (0 : ℝ) < (v : ℝ) := by exact_mod_cast hv
    have hs : (0 : ℝ) < Real.sqrt (v : ℝ) := Real.sqrt_pos.mpr hv2
    have hss : Real.sqrt (v : ℝ) ^ 2 = (v : ℝ) := Real.sq_sqrt (le_of_lt hv2)
    have ht2 : (0 : ℝ) ≤ (t : ℝ) := by exact_mod_cast ht
    rw [abs_div, abs_of_nonneg (Real.sqrt_nonneg _), lt_div_iff₀ hs]
    constructor
    · intro h
      refine ⟨hv, ?_⟩
      have h2 := pow_lt_pow_left₀ h
        (mul_nonneg ht2 (Real.sqrt_nonneg _)) (two_ne_zero)
      rw [mul_pow, hss, sq_abs] at h2
      exact_mod_cast h2
    · rintro ⟨-, h⟩
      have h2 : ((t : ℝ)) ^ 2 * (v : ℝ) < ((q : ℝ)) ^ 2 := by exact_mod_cast h
      have h3 : ((t : ℝ) * Real.sqrt (v : ℝ)) ^ 2 < |(q : ℝ)| ^ 2 := by
        rw [mul_pow, hss, sq_abs]
        exact h2
      exact lt_of_pow_lt_pow_left₀ 2 (abs_nonneg _) h3
  · have hv2 : (v : ℝ) ≤ 0 := by exact_mod_cast le_of_not_lt hv
    have hs : Real.sqrt (v : ℝ) = 0 := Real.sqrt_eq_zero'.mpr hv2
    rw [hs, div_zero, abs_zero]
    constructor
    · intro h
      exact absurd h (not_lt.mpr (by exact_mod_cast ht))
    · rintro ⟨h0, -⟩
      exact absurd h0 hv

theorem ffillAux_map_some (cs : List ℚ) :
    ∀ last : Cell, ffillAux last (cs.map some) = cs.map some := by
  induction cs with
  | nil => intro last; rfl
  | cons a l ih => intro last; simp [ffillAux, ih]

/-! ## Claim theorems -/

/-- C8: the three inspection operations (basic-statistics report,
data-type report, missing-value-count report) return the ticker
dictionary they were given completely unchanged: each only folds over
the dictionary accumulating printed output. -/
theorem claim_C8_inspection_no_mutation (frames : Frames) :
    (check_basic_statistics frames).1 = frames
      ∧ (ensure_data_types frames).1 = frames
      ∧ (check_missing_values frames).1 = frames := by
  refine ⟨?_, ?_, ?_⟩
  · exact foldl_fst frames (fun b p => b ++ [(p.1, describeDF p.2)]) frames []
  · exact foldl_fst frames (fun b p => b ++ [(p.1, dtypesDF p.2)]) frames []
  · exact foldl_fst frames (fun b p => b ++ [(p.1, missingDF p.2)]) frames []

/-- C10: decompose_time_series_all_in_one leaves every table of the
input dictionary unchanged (sorting by Date and setting the Date index
happen on a per-ticker copy), and its decomposition output for each
ticker is computed from that sorted, date-indexed copy. -/
theorem claim_C10_decompose_no_mutation
    (decomp : DateSeries → ℕ → DateSeries × DateSeries × DateSeries)
    (frames : Frames) (period : ℕ) :
    (decompose_time_series_all_in_one decomp frames period).1 = frames
      ∧ (decompose_time_series_all_in_one decomp frames period).2
          = frames.map (fun p =>
              (p.1, decomp (set_index_close (sort_values_date p.2)) period)) := by
  constructor
  · exact foldl_fst frames
      (fun b p => b ++ [(p.1, decomp (set_index_close (sort_values_date p.2)) period)])
      frames []
  · have h := foldl_snd_map frames
      (fun p => (p.1, decomp (set_index_close (sort_values_date p.2)) period))
      frames ([])
    simpa using h

/-- C3: handle_missing_values with method interpolate does NOT perform
linear interpolation: on any nonempty ticker dictionary the embedded
fillna rejects the method string (pandas fillna accepts only
pad/ffill and backfill/bfill and raises ValueError on interpolate,
although the docstring of handle_missing_values advertises it). -/
theorem claim_C3_interpolate_raises (t : String) (df : DataFrame)
    (rest : Frames) :
    handle_missing_values ((t, df) :: rest) "interpolate"
      = Except.error
          "Invalid fill method. Expecting pad (ffill) or backfill (bfill). Got interpolate" := by
  rfl

/-- C7: separate_data gives every requested ticker an independent frame
with columns exactly Date, Close, Open, High, Low, Volume in that
order, the Date index reset to a plain row index 0..n-1, one row per
acquisition date, and the five field series row-aligned positionally
with the date axis. -/
theorem claim_C7_separate_data (hd : Historical) (tickers : List String)
    (t : String) (ht : t ∈ tickers)
    (hC : (hd.Close t).length = hd.dates.length)
    (hO : (hd.Open t).length = hd.dates.length)
    (hH : (hd.High t).length = hd.dates.length)
    (hL : (hd.Low t).length = hd.dates.length)
    (hV : (hd.Volume t).length = hd.dates.length) :
    List.lookup t (separate_data hd tickers) = some (mkTickerDF hd t)
      ∧ (mkTickerDF hd t).columns
          = ["Date", "Close", "Open", "High", "Low", "Volume"]
      ∧ (mkTickerDF hd t).idx = List.range hd.dates.length
      ∧ (mkTickerDF hd t).nrows = hd.dates.length
      ∧ (mkTickerDF hd t).Close.length = hd.dates.length
      ∧ (mkTickerDF hd t).Open.length = hd.dates.length
      ∧ (mkTickerDF hd t).High.length = hd.dates.length
      ∧ (mkTickerDF hd t).Low.length = hd.dates.length
      ∧ (mkTickerDF hd t).Volume.length = hd.dates.length
      ∧ (∀ i, i < hd.dates.length →
          (mkTickerDF hd t).Date.getD i 0 = hd.dates.getD i 0
            ∧ (mkTickerDF hd t).Close.getD i none = (hd.Close t).getD i none
            ∧ (mkTickerDF hd t).Open.getD i none = (hd.Open t).getD i none
            ∧ (mkTickerDF hd t).High.getD i none = (hd.High t).getD i none
            ∧ (mkTickerDF hd t).Low.getD i none = (hd.Low t).getD i none
            ∧ (mkTickerDF hd t).Volume.getD i none = (hd.Volume t).getD i none) := by
  refine ⟨?_, rfl, rfl, ?_, hC, hO, hH, hL, hV, ?_⟩
  · exact lookup_self_map t tickers (fun s => mkTickerDF hd s) ht
  · simp [DataFrame.nrows, mkTickerDF]
  · intro i hi
    exact ⟨rfl, rfl, rfl, rfl, rfl, rfl⟩

/-- C7 instantiated on a concrete two-date acquisition result. -/
theorem claim_C7_separate_data_witness :
    List.lookup "TSLA" (separate_data hdW ["TSLA", "BND"])
        = some (mkTickerDF hdW "TSLA")
      ∧ (mkTickerDF hdW "TSLA").columns
          = ["Date", "Close", "Open", "High", "Low", "Volume"]
      ∧ (mkTickerDF hdW "TSLA").idx = List.range 2 := by
  have h := claim_C7_separate_data hdW ["TSLA", "BND"] "TSLA"
    (by simp) rfl rfl rfl rfl rfl
  exact ⟨h.1, h.2.1, h.2.2.1⟩

/-- C6: the Rolling Mean and Rolling Std columns that analyze_volatility
stores are undefined at every row before the trailing window of the
configured size is full, defined only once it is, and (for clean data)
the rolling mean is indeed present as soon as the window is full. -/
theorem claim_C6_rolling_window :
    (∀ (w : ℕ) (xs : List Cell) (i : ℕ), i + 1 < w →
        (rollingMeanCells w xs).getD i none = none
          ∧ (rollingStdCells w xs).getD i none = none)
      ∧ (∀ (w : ℕ) (xs : List Cell) (i : ℕ),
          ((rollingMeanCells w xs).getD i none).isSome = true → w ≤ i + 1)
      ∧ (∀ (w : ℕ) (xs : List Cell) (i : ℕ),
          ((rollingStdCells w xs).getD i none).isSome = true → w ≤ i + 1)
      ∧ (∀ (w : ℕ) (cs : List ℚ) (i : ℕ), 1 ≤ w → w ≤ i + 1 →
          i < cs.length →
          ((rollingMeanCells w (cs.map some)).getD i none).isSome = true)
      ∧ (∀ (frames : Frames) (w : ℕ) (t : String) (df : DataFrame),
          List.lookup t frames = some df →
          List.lookup t (analyze_volatility frames w)
            = some { df with
                RollingMean := some (rollingMeanCells w df.Close)
                RollingStd := some (rollingStdCells w df.Close) }) := by
  refine ⟨?_, ?_, ?_, ?_, ?_⟩
  · intro w xs i h
    constructor
    · simp only [rollingMeanCells]
      rw [map_range_getD]
      by_cases hi : i < xs.length
      · rw [if_pos hi, if_neg (by omega)]
      · rw [if_neg hi]
    · simp only [rollingStdCells]
      rw [map_range_getD]
      by_cases hi : i < xs.length
      · rw [if_pos hi, if_neg (by omega)]
      · rw [if_neg hi]
  · intro w xs i h
    simp only [rollingMeanCells] at h
    rw [map_range_getD] at h
    by_cases hi : i < xs.length
    · rw [if_pos hi] at h
      by_cases hc : w ≤ i + 1 ∧ 1 ≤ w
      · exact hc.1
      · rw [if_neg hc] at h
        simp at h
    · rw [if_neg hi] at h
      simp at h
  · intro w xs i h
    simp only [rollingStdCells] at h
    rw [map_range_getD] at h
    by_cases hi : i < xs.length
    · rw [if_pos hi] at h
      by_cases hc : w ≤ i + 1 ∧ 2 ≤ w
      · exact hc.1
      · rw [if_neg hc] at h
        simp at h
    · rw [if_neg hi] at h
      simp at h
  · intro w cs i h1 hw hi
    simp only [rollingMeanCells]
    rw [map_range_getD, if_pos (by simpa using hi), if_pos ⟨hw, h1⟩,
      windowSlice_map_some, allSome_map_some]
    rfl
  · intro frames w t df h
    have step : List.lookup t (analyze_volatility frames w)
        = (List.lookup t frames).map (fun v =>
            { v with
              RollingMean := some (rollingMeanCells w v.Close)
              RollingStd := some (rollingStdCells w v.Close) }) :=
      lookup_map_val t frames (fun v : DataFrame =>
        ({ v with
           RollingMean := some (rollingMeanCells w v.Close)
           RollingStd := some (rollingStdCells w v.Close) } : DataFrame))
    rw [step, h]
    rfl

/-- C6 instantiated: with the default window 30 (and a 20-long series)
the rolling columns are absent at rows 0 and 28, and with window 2 on a
clean 3-row series the rolling mean exists at row 1. -/
theorem claim_C6_rolling_window_witness :
    (rollingMeanCells 30 (cs11.map some)).getD 28 none = none
      ∧ (rollingStdCells 30 (cs11.map some)).getD 28 none = none
      ∧ ((rollingMeanCells 2 ([100, 110, 99].map some)).getD 1 none).isSome
          = true := by
  refine ⟨(claim_C6_rolling_window.1 30 (cs11.map some) 28 (by omega)).1,
    (claim_C6_rolling_window.1 30 (cs11.map some) 28 (by omega)).2,
    claim_C6_rolling_window.2.2.2.1 2 [100, 110, 99] 1 (by omega) (by omega)
      (by simp)⟩

/-- C1: normalize_data min-max scales each of the five OHLCV columns per
ticker by that column's own min and max: with max above min every value
becomes (value - min) / (max - min) and lands in the interval from 0 to
1; a constant column (for instance 5.0 everywhere) becomes 0.0 at every
row with no arithmetic error; and Close 10, 20, 30 becomes exactly 0,
0.5, 1. -/
theorem claim_C1_normalize_minmax :
    (∀ (cs : List ℚ) (M m : ℚ), colMax cs = some M → colMin cs = some m →
        M ≠ m →
        minmaxCol (cs.map some) = cs.map (fun x => some ((x - m) / (M - m))))
      ∧ (∀ (cs : List ℚ) (y : ℚ), some y ∈ minmaxCol (cs.map some) →
          0 ≤ y ∧ y ≤ 1)
      ∧ (∀ k : ℕ, minmaxCol (List.replicate k (some (5 : ℚ)))
          = List.replicate k (some 0))
      ∧ minmaxCol ([(10:ℚ), 20, 30].map some) = [some 0, some (1/2), some 1]
      ∧ (∀ (frames : Frames) (t : String) (df : DataFrame),
          List.lookup t frames = some df →
          List.lookup t (normalize_data frames)
            = some { df with
                Close := minmaxCol df.Close, Open := minmaxCol df.Open
                High := minmaxCol df.High, Low := minmaxCol df.Low
                Volume := minmaxCol df.Volume }) := by
  refine ⟨?_, ?_, ?_, ?_, ?_⟩
  · intro cs M m hM hm hne
    rw [minmaxCol_map_some cs M m hM hm]
    apply List.map_congr_left
    intro x _
    rw [if_neg hne, mul_one_div]
  · intro cs y hy
    cases cs with
    | nil => simp [minmaxCol, colMax, colMin, List.reduceOption] at hy
    | cons a l =>
      rw [minmaxCol_map_some (a :: l) (l.foldl max a) (l.foldl min a) rfl rfl]
        at hy
      obtain ⟨x, hx, hxy⟩ := List.mem_map.mp hy
      have hyx : y = (x - l.foldl min a)
          * (if l.foldl max a = l.foldl min a then 1
             else 1 / (l.foldl max a - l.foldl min a)) :=
        (Option.some.inj hxy).symm
      have hxM : x ≤ l.foldl max a :=
        @colMax_is_ub (a :: l) (l.foldl max a) rfl x hx
      have hmx : l.foldl min a ≤ x :=
        @colMin_is_lb (a :: l) (l.foldl min a) rfl x hx
      by_cases hMm : l.foldl max a = l.foldl min a
      · have hxm : x = l.foldl min a := le_antisymm (hMm ▸ hxM) hmx
        rw [hyx, if_pos hMm, hxm]
        norm_num
      · have hlt : l.foldl min a < l.foldl max a :=
          lt_of_le_of_ne (le_trans hmx hxM) (Ne.symm hMm)
        have hpos : 0 < l.foldl max a - l.foldl min a := sub_pos.mpr hlt
        rw [hyx, if_neg hMm, mul_one_div]
        constructor
        · exact div_nonneg (sub_nonneg.mpr hmx) (le_of_lt hpos)
        · exact (div_le_one hpos).mpr (sub_le_sub_right hxM _)
  · intro k
    cases k with
    | zero => rfl
    | succ n =>
      have h1 : List.replicate (n+1) (some (5:ℚ))
          = (List.replicate (n+1) (5:ℚ)).map some := by
        simp
      have hM : colMax (List.replicate (n+1) (5:ℚ)) = some 5 := by
        rw [List.replicate_succ]
        show some ((List.replicate n (5:ℚ)).foldl max 5) = some 5
        rw [foldl_max_replicate]
      have hm : colMin (List.replicate (n+1) (5:ℚ)) = some 5 := by
        rw [List.replicate_succ]
        show some ((List.replicate n (5:ℚ)).foldl min 5) = some 5
        rw [foldl_min_replicate]
      rw [h1, minmaxCol_map_some _ 5 5 hM hm]
      simp
  · have hM : colMax [(10:ℚ), 20, 30] = some 30 := by
      show some (List.foldl max 10 [20, 30]) = some 30
      norm_num [List.foldl, max_def]
    have hm : colMin [(10:ℚ), 20, 30] = some 10 := by
      show some (List.foldl min 10 [20, 30]) = some 10
      norm_num [List.foldl, min_def]
    rw [minmaxCol_map_some _ 30 10 hM hm]
    norm_num [List.map]
  · intro frames t df h
    have step : List.lookup t (normalize_data frames)
        = (List.lookup t frames).map (fun v : DataFrame =>
            ({ v with
               Close := minmaxCol v.Close, Open := minmaxCol v.Open
               High := minmaxCol v.High, Low := minmaxCol v.Low
               Volume := minmaxCol v.Volume } : DataFrame)) :=
      lookup_map_val t frames (fun v : DataFrame =>
        ({ v with
           Close := minmaxCol v.Close, Open := minmaxCol v.Open
           High := minmaxCol v.High, Low := minmaxCol v.Low
           Volume := minmaxCol v.Volume } : DataFrame))
    rw [step, h]
    rfl

/-- C1 instantiated: the 10, 20, 30 column scaled by its own min 10 and
max 30, and the in-bounds fact for its middle value. -/
theorem claim_C1_normalize_minmax_witness :
    minmaxCol ([(10:ℚ), 20, 30].map some)
        = [(10:ℚ), 20, 30].map (fun x => some ((x - 10) / (30 - 10)))
      ∧ (0 ≤ (1:ℚ)/2 ∧ (1:ℚ)/2 ≤ 1) :=
  ⟨claim_C1_normalize_minmax.1 [10, 20, 30] 30 10
      (by show some (List.foldl max 10 [20, 30]) = some 30
          norm_num [List.foldl, max_def])
      (by show some (List.foldl min 10 [20, 30]) = some 10
          norm_num [List.foldl, min_def])
      (by norm_num),
   claim_C1_normalize_minmax.2.1 [10, 20, 30] (1/2)
      (by rw [claim_C1_normalize_minmax.2.2.2.1]
          norm_num)⟩

/-- C2 corrected: on a table with row labels 0..n-1 and exactly one
incomplete row k, handle_missing_values with method drop removes exactly
that row, but the surviving rows KEEP their original index labels (the
range 0..n-1 with k deleted) instead of being re-indexed contiguously
0..n-2: the embedded dropna never resets the index. -/
theorem claim_C2_drop_amended (df : DataFrame) (n k : ℕ) (hk : k < n)
    (hidx : df.idx = List.range n)
    (hc : ∀ i, i < n → (completeRow df i = true ↔ i ≠ k)) :
    (dropna df).idx = (List.range n).filter (fun i => i != k)
      ∧ (dropna df).idx.length = n - 1
      ∧ (∀ p, p < n - 1 →
          (dropna df).Close.getD p none
            = df.Close.getD ((dropna df).idx.getD p 0) none)
      ∧ (∀ frames : Frames,
          handle_missing_values frames "drop"
            = Except.ok (frames.map (fun q => (q.1, dropna q.2)))) := by
  have hn : df.nrows = n := by rw [DataFrame.nrows, hidx, List.length_range]
  have hkeep : (List.range df.nrows).filter (completeRow df)
      = (List.range n).filter (fun i => i != k) := by
    rw [hn]
    apply List.filter_congr
    intro i hi
    have hiff := hc i (List.mem_range.mp hi)
    by_cases hik : i = k
    · have h1 : completeRow df i = false := by
        cases hcr : completeRow df i with
        | false => rfl
        | true => exact absurd hik (hiff.mp hcr)
      have h2 : (i != k) = false := by
        rw [bne_eq_false_iff_eq]
        exact hik
      rw [h1, h2]
    · rw [hiff.mpr hik, bne_iff_ne.mpr hik]
  have hidx2 : (dropna df).idx = (List.range n).filter (fun i => i != k) := by
    show ((List.range df.nrows).filter (completeRow df)).map
        (fun i => df.idx.getD i 0) = _
    rw [hkeep]
    have hmapid : ∀ i ∈ (List.range n).filter (fun i => i != k),
        df.idx.getD i 0 = i := by
      intro i hi
      have hi2 : i < n := List.mem_range.mp (List.mem_of_mem_filter hi)
      rw [hidx]
      exact getD_range_lt hi2
    rw [List.map_congr_left hmapid]
    simp
  refine ⟨hidx2, ?_, ?_, ?_⟩
  · rw [hidx2]
    exact range_filter_bne_length hk
  · intro p hp
    have hp2 : p < ((List.range n).filter (fun i => i != k)).length := by
      rw [range_filter_bne_length hk]
      exact hp
    show (((List.range df.nrows).filter (completeRow df)).map
        (fun i => df.Close.getD i none)).getD p none = _
    rw [hkeep, hidx2, getD_map_lt _ _ p none 0 hp2]
  · intro frames
    exact mapM_ok (fun q => (q.1, dropna q.2)) frames

/-- C2 as stated is false: dropping the single incomplete middle row of
a 3-row table leaves index labels 0 and 2, not the contiguous 0 and 1
the claim demands. -/
theorem claim_C2_drop_counterexample :
    (handle_missing_values [("T", df3)] "drop").map
        (fun fs => fs.map (fun p => (p.1, p.2.idx)))
      = Except.ok [("T", [0, 2])]
      ∧ ([0, 2] : List ℕ) ≠ [0, 1] := by
  constructor
  · rfl
  · decide

/-- C2 amended, instantiated on the concrete 3-row table. -/
theorem claim_C2_drop_witness :
    (dropna df3).idx = (List.range 3).filter (fun i => i != 1)
      ∧ (dropna df3).idx.length = 2 :=
  ⟨(claim_C2_drop_amended df3 3 1 (by omega) rfl (by decide)).1,
   (claim_C2_drop_amended df3 3 1 (by omega) rfl (by decide)).2.1⟩

/-- C4 corrected: the Daily Return column equals
(close[i] - close[i-1]) / close[i-1] * 100 with an absent first row in
calculate_daily_returns (and Close 100, 110, 99 gives none, 10, -10
there), but NOT at every code path: visualize_All_in_one stores the raw
fractional pct_change without the times-100, so the same series gives
none, 1/10, -1/10 there. -/
theorem claim_C4_daily_return_amended :
    (∀ xs : List Cell, (dailyReturnPct xs).getD 0 none = none)
      ∧ (∀ (cs : List ℚ) (i : ℕ), i + 1 < cs.length → cs.getD i 0 ≠ 0 →
          (dailyReturnPct (cs.map some)).getD (i+1) none
            = some ((cs.getD (i+1) 0 - cs.getD i 0) / cs.getD i 0 * 100))
      ∧ (∀ (frames : Frames) (t : String) (df : DataFrame),
          List.lookup t frames = some df →
          List.lookup t (calculate_daily_returns frames)
            = some { df with DailyReturn := some (dailyReturnPct df.Close) })
      ∧ dailyReturnPct ([(100:ℚ), 110, 99].map some)
          = [none, some 10, some (-10)]
      ∧ (∀ (frames : Frames) (t : String) (df : DataFrame),
          List.lookup t frames = some df →
          List.lookup t (visualize_All_in_one frames)
            = some { df with
                DailyReturn := some (pctChange df.Close)
                RollingMean := some (rollingMeanCells 20 df.Close)
                RollingStd := some (rollingStdCells 20 df.Close) })
      ∧ pctChange ([(100:ℚ), 110, 99].map some)
          = [none, some (1/10), some (-1/10)] := by
  refine ⟨?_, ?_, ?_, ?_, ?_, ?_⟩
  · intro xs
    simp only [dailyReturnPct]
    rw [getD_map_option]
    simp only [pctChange]
    rw [map_range_getD]
    simp
  · intro cs i h hne
    have hlen : i + 1 < (cs.map some).length := by simpa using h
    simp only [dailyReturnPct]
    rw [getD_map_option]
    simp only [pctChange]
    rw [map_range_getD, if_pos hlen, if_neg (Nat.succ_ne_zero i),
      show ffillCol (cs.map some) = cs.map some from ffillAux_map_some cs none,
      Nat.add_sub_cancel, getD_map_lt cs some (i+1) none 0 (by simpa using h),
      getD_map_lt cs some i none 0 (by omega)]
    simp only [Option.map_some']
    rw [div_sub_one hne]
  · intro frames t df h
    have step : List.lookup t (calculate_daily_returns frames)
        = (List.lookup t frames).map (fun v : DataFrame =>
            ({ v with DailyReturn := some (dailyReturnPct v.Close) }
              : DataFrame)) :=
      lookup_map_val t frames (fun v : DataFrame =>
        ({ v with DailyReturn := some (dailyReturnPct v.Close) } : DataFrame))
    rw [step, h]
    rfl
  · show ([none, some (((110:ℚ)/100 - 1) * 100),
        some (((99:ℚ)/110 - 1) * 100)] : List Cell)
      = [none, some 10, some (-10)]
    norm_num
  · intro frames t df h
    have step : List.lookup t (visualize_All_in_one frames)
        = (List.lookup t frames).map (fun v : DataFrame =>
            ({ v with
               DailyReturn := some (pctChange v.Close)
               RollingMean := some (rollingMeanCells 20 v.Close)
               RollingStd := some (rollingStdCells 20 v.Close) }
              : DataFrame)) :=
      lookup_map_val t frames (fun v : DataFrame =>
        ({ v with
           DailyReturn := some (pctChange v.Close)
           RollingMean := some (rollingMeanCells 20 v.Close)
           RollingStd := some (rollingStdCells 20 v.Close) } : DataFrame))
    rw [step, h]
    rfl
  · show ([none, some ((110:ℚ)/100 - 1), some ((99:ℚ)/110 - 1)] : List Cell)
      = [none, some (1/10), some (-1/10)]
    norm_num

/-- C4 as stated is false for the visualize_All_in_one code path: on
Close 100, 110, 99 that path stores the fractional returns none, 1/10,
-1/10 in Daily Return, not the claimed percentages none, 10, -10. -/
theorem claim_C4_daily_return_counterexample :
    (List.lookup "T" (visualize_All_in_one [("T", dfRet)])).map
        (fun df => df.DailyReturn)
      ≠ some (some [none, some 10, some (-10)])
      ∧ (List.lookup "T" (visualize_All_in_one [("T", dfRet)])).map
          (fun df => df.DailyReturn)
        = some (some [none, some (1/10), some (-1/10)]) := by
  have hpct : pctChange dfRet.Close = [none, some (1/10), some (-1/10)] := by
    show ([none, some ((110:ℚ)/100 - 1), some ((99:ℚ)/110 - 1)] : List Cell)
      = [none, some (1/10), some (-1/10)]
    norm_num
  have hlook : (List.lookup "T" (visualize_All_in_one [("T", dfRet)])).map
      (fun df => df.DailyReturn)
      = some (some (pctChange dfRet.Close)) := rfl
  rw [hlook, hpct]
  constructor
  · intro hcontra
    have h1 : ([none, some (1/10), some (-1/10)] : List Cell)
        = [none, some 10, some (-10)] := by
      have := Option.some.inj hcontra
      exact Option.some.inj this
    have h2 : ((1:ℚ)/10) = 10 := by
      have h3 := List.cons.inj h1
      have h4 := List.cons.inj h3.2
      exact Option.some.inj h4.1
    norm_num at h2
  · rfl

/-- C4 amended, instantiated: first row absent, and the percent formula
at row 1 of the 100, 110, 99 series. -/
theorem claim_C4_daily_return_witness :
    (dailyReturnPct ([(100:ℚ), 110, 99].map some)).getD 0 none = none
      ∧ (dailyReturnPct ([(100:ℚ), 110, 99].map some)).getD 1 none
          = some ((110 - 100) / 100 * 100) :=
  ⟨claim_C4_daily_return_amended.1 ([(100:ℚ), 110, 99].map some),
   claim_C4_daily_return_amended.2.1 [100, 110, 99] 0 (by norm_num)
     (by norm_num)⟩

/-- C9: analyze_unusual_returns leaves a pre-existing Daily Return
column untouched and selects the unusual rows by comparing those stored
values (whatever scale they are in) against the percent threshold; only
when the column is absent does it compute Close pct_change times 100. -/
theorem claim_C9_unusual_returns_preexisting :
    (∀ (df : DataFrame) (v : List Cell), df.DailyReturn = some v →
        updateDR df = df ∧ drOf df = v)
      ∧ (∀ df : DataFrame, df.DailyReturn = none →
          (updateDR df).DailyReturn = some (dailyReturnPct df.Close)
            ∧ drOf df = dailyReturnPct df.Close)
      ∧ (∀ (frames : Frames) (t : ℚ) (tick : String) (df : DataFrame),
          List.lookup tick frames = some df →
          List.lookup tick (analyze_unusual_returns frames t).1
              = some (updateDR df)
            ∧ List.lookup tick (analyze_unusual_returns frames t).2
              = some (unusualReport df t))
      ∧ (∀ (dr : List Cell) (t : ℚ) (i : ℕ),
          i ∈ unusualPositions dr t
            ↔ i < dr.length
                ∧ ∃ x, dr.getD i none = some x ∧ (t < x ∨ x < -t)) := by
  refine ⟨?_, ?_, ?_, ?_⟩
  · intro df v h
    constructor
    · simp only [updateDR, h]
    · simp only [drOf, h]
  · intro df h
    constructor
    · simp only [updateDR, h]
    · simp only [drOf, h]
  · intro frames t tick df h
    constructor
    · have s1 : List.lookup tick (analyze_unusual_returns frames t).1
          = (List.lookup tick frames).map updateDR :=
        lookup_map_val tick frames updateDR
      rw [s1, h]
      rfl
    · have s2 : List.lookup tick (analyze_unusual_returns frames t).2
          = (List.lookup tick frames).map (fun v => unusualReport v t) :=
        lookup_map_val tick frames (fun v => unusualReport v t)
      rw [s2, h]
      rfl
  · intro dr t i
    simp only [unusualPositions, List.mem_filter, List.mem_range]
    cases hx : dr.getD i none with
    | none => simp [hx]
    | some x => simp [hx]

/-- C9 instantiated: a frame that already stores Daily Return values 0,
5, -3 passes through analyze_unusual_returns unchanged. -/
theorem claim_C9_unusual_returns_witness :
    updateDR dfDR = dfDR
      ∧ drOf dfDR = [some 0, some 5, some (-3)]
      ∧ List.lookup "T" (analyze_unusual_returns [("T", dfDR)] 2).1
          = some (updateDR dfDR) :=
  ⟨(claim_C9_unusual_returns_preexisting.1 dfDR
      [some 0, some 5, some (-3)] rfl).1,
   (claim_C9_unusual_returns_preexisting.1 dfDR
      [some 0, some 5, some (-3)] rfl).2,
   (claim_C9_unusual_returns_preexisting.2.2.1 [("T", dfDR)] 2 "T" dfDR
      rfl).1⟩

theorem zscores_map_some (cs : List ℚ) :
    zscoresCells (cs.map some)
      = cs.map (fun x : ℚ => some (((x : ℝ) - ((meanQ cs : ℚ) : ℝ))
          / Real.sqrt ((popVar cs : ℚ) : ℝ))) := by
  unfold zscoresCells
  rw [allSome_map_some]

theorem outlierPositions_map_some (cs : List ℚ) (t : ℚ) (ht : 0 ≤ t) :
    outlierPositions (cs.map some) t
      = (List.range cs.length).filter
          (fun i => decide (0 < popVar cs
            ∧ t ^ 2 * popVar cs < (cs.getD i 0 - meanQ cs) ^ 2)) := by
  show (List.range (cs.map some).length).filter _ = _
  rw [List.length_map]
  apply List.filter_congr
  intro i hi
  have hi2 : i < cs.length := List.mem_range.mp hi
  rw [zscores_map_some, getD_map_lt cs _ i none 0 hi2, decide_eq_decide]
  have hcast : ((cs.getD i 0 : ℚ) : ℝ) - ((meanQ cs : ℚ) : ℝ)
      = (((cs.getD i 0 - meanQ cs : ℚ)) : ℝ) := by
    push_cast
    ring
  constructor
  · intro hprop
    have hlt : (t : ℝ) < |(((cs.getD i 0 : ℚ) : ℝ) - ((meanQ cs : ℚ) : ℝ))
        / Real.sqrt ((popVar cs : ℚ) : ℝ)| := hprop
    rw [hcast] at hlt
    exact (abs_div_sqrt_gt_iff _ _ _ ht).mp hlt
  · intro h
    show (t : ℝ) < |(((cs.getD i 0 : ℚ) : ℝ) - ((meanQ cs : ℚ) : ℝ))
        / Real.sqrt ((popVar cs : ℚ) : ℝ)|
    rw [hcast]
    exact (abs_div_sqrt_gt_iff _ _ _ ht).mpr h

theorem meanQ_cs11 : meanQ cs11 = 2000 / 11 := by
  have hsum : cs11.sum = 2000 := by
    show (List.replicate 10 (100:ℚ) ++ [1000]).sum = (2000:ℚ)
    rw [List.sum_append, List.sum_replicate]
    norm_num
  have hlen : ((cs11.length : ℕ) : ℚ) = 11 := by
    show ((11 : ℕ) : ℚ) = 11
    norm_num
  unfold meanQ
  rw [hsum, hlen]

theorem popVar_cs11 : popVar cs11 = 8100000 / 121 := by
  have hmap : cs11.map (fun x => (x - meanQ cs11) ^ 2)
      = List.replicate 10 (((100:ℚ) - 2000/11) ^ 2)
          ++ [((1000:ℚ) - 2000/11) ^ 2] := by
    show (List.replicate 10 (100:ℚ) ++ [1000]).map
        (fun x => (x - meanQ cs11) ^ 2) = _
    rw [List.map_append, List.map_replicate, meanQ_cs11]
    rfl
  have hlen : ((cs11.length : ℕ) : ℚ) = 11 := by
    show ((11 : ℕ) : ℚ) = 11
    norm_num
  unfold popVar
  rw [hmap, List.sum_append, List.sum_replicate, hlen]
  norm_num

theorem cs11_getD_lt {i : ℕ} (hi : i < 10) : cs11.getD i 0 = 100 := by
  interval_cases i <;> rfl

theorem outlierPositions_cs11 : outlierPositions (cs11.map some) 3 = [10] := by
  rw [outlierPositions_map_some cs11 3 (by norm_num)]
  have cgen : ∀ i, i < 10 →
      decide (0 < popVar cs11
        ∧ (3:ℚ) ^ 2 * popVar cs11 < (cs11.getD i 0 - meanQ cs11) ^ 2)
      = false := by
    intro i hi
    apply decide_eq_false
    rintro ⟨-, hlt⟩
    rw [meanQ_cs11, popVar_cs11, cs11_getD_lt hi] at hlt
    norm_num at hlt
  have c10 : decide (0 < popVar cs11
      ∧ (3:ℚ) ^ 2 * popVar cs11 < (cs11.getD 10 0 - meanQ cs11) ^ 2)
      = true := by
    apply decide_eq_true
    rw [meanQ_cs11, popVar_cs11, show cs11.getD 10 0 = (1000:ℚ) from rfl]
    constructor
    · norm_num
    · norm_num
  rw [show cs11.length = 11 from rfl,
    show List.range 11 = [0, 1, 2, 3, 4, 5, 6, 7, 8, 9, 10] from rfl]
  simp only [List.filter, cgen 0 (by norm_num), cgen 1 (by norm_num),
    cgen 2 (by norm_num), cgen 3 (by norm_num), cgen 4 (by norm_num),
    cgen 5 (by norm_num), cgen 6 (by norm_num), cgen 7 (by norm_num),
    cgen 8 (by norm_num), cgen 9 (by norm_num), c10]

/-- C5: detect_outliers computes the Z-Score column once over the whole
series as (close - mean) / std and reports exactly the rows whose
absolute z-score exceeds the threshold (in squared rational form:
threshold^2 times the population variance below the squared deviation);
on ten closes of 100 plus one of 1000 with threshold 3, exactly the row
with value 1000 is reported. -/
theorem claim_C5_zscore_outliers :
    (∀ (cs : List ℚ) (t : ℚ) (i : ℕ), 0 ≤ t →
        (i ∈ outlierPositions (cs.map some) t
          ↔ i < cs.length ∧ 0 < popVar cs
              ∧ t ^ 2 * popVar cs < (cs.getD i 0 - meanQ cs) ^ 2))
      ∧ (∀ (frames : Frames) (t : ℚ) (tick : String) (df : DataFrame),
          List.lookup tick frames = some df →
          List.lookup tick (detect_outliers frames t).2
              = some ((outlierPositions df.Close t).map
                  (fun i => (df.Date.getD i 0, df.Close.getD i none)))
            ∧ List.lookup tick (detect_outliers frames t).1
              = some { df with ZScore := some (zscoresCells df.Close) })
      ∧ (detect_outliers [("T", df11)] 3).2
          = [("T", [((10 : ℤ), some (1000 : ℚ))])] := by
  refine ⟨?_, ?_, ?_⟩
  · intro cs t i ht
    rw [outlierPositions_map_some cs t ht]
    simp only [List.mem_filter, List.mem_range, decide_eq_true_eq]
  · intro frames t tick df h
    constructor
    · have s2 : List.lookup tick (detect_outliers frames t).2
          = (List.lookup tick frames).map (fun v =>
              (outlierPositions v.Close t).map
                (fun i => (v.Date.getD i 0, v.Close.getD i none))) :=
        lookup_map_val tick frames (fun v =>
          (outlierPositions v.Close t).map
            (fun i => (v.Date.getD i 0, v.Close.getD i none)))
      rw [s2, h]
      rfl
    · have s1 : List.lookup tick (detect_outliers frames t).1
          = (List.lookup tick frames).map (fun v : DataFrame =>
              ({ v with ZScore := some (zscoresCells v.Close) }
                : DataFrame)) :=
        lookup_map_val tick frames (fun v : DataFrame =>
          ({ v with ZScore := some (zscoresCells v.Close) } : DataFrame))
      rw [s1, h]
      rfl
  · show [("T", (outlierPositions (cs11.map some) 3).map
        (fun i => (df11.Date.getD i 0, df11.Close.getD i none)))]
      = [("T", [((10 : ℤ), some (1000 : ℚ))])]
    rw [outlierPositions_cs11]
    rfl

/-- C5 instantiated: row 10 of the example series is an outlier at
threshold 3, via the general characterization. -/
theorem claim_C5_zscore_outliers_witness :
    10 ∈ outlierPositions (cs11.map some) 3
      ∧ List.lookup "T" (detect_outliers [("T", df11)] 3).2
          = some ((outlierPositions df11.Close 3).map
              (fun i => (df11.Date.getD i 0, df11.Close.getD i none))) :=
  ⟨(claim_C5_zscore_outliers.1 cs11 3 10 (by norm_num)).mpr
      ⟨by norm_num [cs11],
       by rw [popVar_cs11]; norm_num,
       by rw [popVar_cs11, meanQ_cs11,
            show cs11.getD 10 0 = (1000:ℚ) from rfl]
          norm_num⟩,
   (claim_C5_zscore_outliers.2.1 [("T", df11)] 3 "T" df11 rfl).1⟩

end GMF
